import Mathlib

/-!
Shallow embedding of `src/fine_tune/finetune_medclip.py` (class
`TrainMedClipClassifier`): prompt-policy validation, per-batch prompt
construction, the symmetric contrastive loss, the mixed-precision
optimizer cycle, the evaluation metrics, the data-source sweep traces,
the early-stopping/checkpointing epoch loop, and the metric history.

Python floats are idealised as exact rationals (`ℚ`) except in the loss,
where the transcendental softmax cross-entropy is idealised over `ℝ`.
File paths and option strings are Lean `String`s; the in-memory model
parameters are an abstract type `P`; the filesystem seen by
`torch.save`/`torch.load` is a map `String → Option P`.
-/

namespace VisionProject

/-! ### Prompt-policy validation (`run`, line 248)

`assert self.option == "random_captions" and self.number_of_captions >= 1
 or self.option == "regular_captions" and self.number_of_captions == 1`.
Python's `and` binds tighter than `or`. -/

def optionSettingsValid (option : String) (numberOfCaptions : Int) : Bool :=
  (option == "random_captions" && decide (1 ≤ numberOfCaptions)) ||
    (option == "regular_captions" && numberOfCaptions == 1)

/-- One phase of `run` (lines 246-252): the assert, then — only when the
assert passes — `train_validate` (the epoch loop) and the final test
evaluation. -/
inductive RunStep
  | precheck
  | epoch (i : Nat)
  | testEvaluation
deriving DecidableEq

/-- The phase trace of `run` (lines 246-250): the assert executes first,
exactly once; the epochs of `train_validate` and the test evaluation run
only when the assert passed. -/
def runTrace (option : String) (numberOfCaptions : Int) (epochs : Nat) : List RunStep :=
  RunStep.precheck ::
    (if optionSettingsValid option numberOfCaptions then
      ((List.range epochs).map RunStep.epoch) ++ [RunStep.testEvaluation]
    else [])

/-! ### Per-batch prompt construction (`train_validate`, lines 156-158)

```
if self.option == "regular_captions":
  texts = {"COVID": [f"a photo of {categories[int(labels[i].item())]} lungs." for i in range(len(labels))]}
cls_prompts = process_class_prompts(texts)
```
There is no branch assigning `texts` for any other option value, so for
`option == "random_captions"` (which the assert accepts) the read of
`texts` raises `UnboundLocalError`.  Labels are the batch's integer class
labels; `categories[...]` raises `IndexError` when a label is out of
range of the category vocabulary. -/

def buildCaptions (categories : List String) : List Nat → Option (List String)
  | [] => some []
  | l :: ls =>
    match categories.get? l, buildCaptions categories ls with
    | some c, some rest => some (("a photo of " ++ c ++ " lungs.") :: rest)
    | _, _ => none

def buildTexts (option : String) (categories : List String) (labels : List Nat) :
    Except String (List String) :=
  if option = "regular_captions" then
    match buildCaptions categories labels with
    | some caps => Except.ok caps
    | none => Except.error "IndexError: list index out of range"
  else
    Except.error "UnboundLocalError: local variable texts referenced before assignment"

/-! ### Symmetric contrastive loss (`train_validate`, lines 166-168)

```
ground_truth = torch.arange(len(inputs), dtype=torch.long, device=self.device)
total_loss = (self.loss_img(logits_per_image, ground_truth)
              + self.loss_txt(logits_per_text, ground_truth)) / 2
```
`loss_img` and `loss_txt` are `nn.CrossEntropyLoss()` with the default
mean reduction: for a `B × B` logit matrix `L` and targets `t`,
`CE(L, t) = (1/B) * Σ_i (log Σ_j exp (L i j) - L i (t i))`.
A `B × B` logit matrix is a function `Fin B → Fin B → ℝ`
(row = image index, column = text index). -/

noncomputable def crossEntropyLoss (B : ℕ) (L : Fin B → Fin B → ℝ)
    (target : Fin B → Fin B) : ℝ :=
  (∑ i, (Real.log (∑ j, Real.exp (L i j)) - L i (target i))) / B

/-- `torch.arange(len(inputs))` used as the target vector: image `i`
matches text `i`. -/
def groundTruth (B : ℕ) : Fin B → Fin B := fun i => i

noncomputable def totalLoss (B : ℕ) (logitsPerImage logitsPerText : Fin B → Fin B → ℝ) : ℝ :=
  (crossEntropyLoss B logitsPerImage (groundTruth B) +
    crossEntropyLoss B logitsPerText (groundTruth B)) / 2

def transposeLogits (B : ℕ) (L : Fin B → Fin B → ℝ) : Fin B → Fin B → ℝ :=
  fun i j => L j i

/-! ### Mixed-precision cycle (lines 57-61 and 170-175)

Only the numeric precision of each parameter's value and gradient is
modelled.  `convert_models_to_fp32` (lines 57-61) touches exactly the
parameters whose gradient is present (`if p.grad is not None`) and casts
both the value and the gradient to full precision.
`clip.model.convert_weights` (the call on line 175) casts the model's
weights back to reduced precision.  The Adam step updates parameter
values in place and leaves their dtype unchanged, so on precision it is
the identity. -/

inductive Precision
  | full
  | half
deriving DecidableEq

structure Param where
  data : Precision
  grad : Option Precision
deriving DecidableEq

def convert_models_to_fp32 (ps : List Param) : List Param :=
  ps.map fun p =>
    match p.grad with
    | none => p
    | some _ => { data := Precision.full, grad := some Precision.full }

def convert_weights (ps : List Param) : List Param :=
  ps.map fun p => { p with data := Precision.half }

def optimizerStep (ps : List Param) : List Param := ps

/-- The per-batch optimizer block (lines 170-175): on `"cpu"` the step
runs directly; otherwise the parameters are cast to full precision, the
step runs, and the parameters are cast back to reduced precision. -/
def precisionBatchStep (device : String) (ps : List Param) : List Param :=
  if device = "cpu" then optimizerStep ps
  else convert_weights (optimizerStep (convert_models_to_fp32 ps))

/-! ### Zero-shot classification and evaluation (lines 80-123)

`zero_shot_classification(image_batch, categories)` (lines 80-98) builds
the prompt dictionary `{"COVID": ["a photo of covid lungs."]}` — a fixed
literal that never reads `categories` — runs the classifier forward on
the pixel batch and that prompt set, flattens the logits to a score
vector and binarizes it with `np.round` (round half to even).  The
classifier forward (the `medclip` `PromptClassifier`) is external; it is
abstracted as a function from a pixel batch and a caption list to the
flattened score vector. -/

def fixedCovidPrompts : List String := ["a photo of covid lungs."]

/-- `np.round` on an exact rational: round half to even. -/
def npRound (q : ℚ) : ℚ :=
  let f : Int := ⌊q⌋
  let frac := q - f
  if frac < 1 / 2 then f
  else if 1 / 2 < frac then f + 1
  else if f % 2 = 0 then f else f + 1

def zero_shot_classification {Img Cat : Type} (forward : Img → List String → List ℚ)
    (imageBatch : Img) (categories : Cat) : List ℚ × List ℚ :=
  let topProbs := forward imageBatch fixedCovidPrompts
  let topLabels := topProbs.map npRound
  (topProbs, topLabels)

/-! Corpus metrics (line 121).  `accuracy_score`, `precision_score` and
`recall_score` are the usual counting metrics; `roc_auc_score` is
modelled from sklearn's documented behaviour for binary labels: it
raises `ValueError` when only one class is present in `y_true`
(`_binary_roc_auc_score` checks the number of distinct true labels
before anything else), and otherwise returns the Mann-Whitney statistic
(ties counted half). -/

def accuracy_score (yTrue yPred : List ℚ) : ℚ :=
  (((yTrue.zip yPred).filter fun p => decide (p.1 = p.2)).length : ℚ) / (yTrue.length : ℚ)

def precision_score (yTrue yPred : List ℚ) : ℚ :=
  let tp := ((yTrue.zip yPred).filter fun p => decide (p.1 = 1 ∧ p.2 = 1)).length
  let fp := ((yTrue.zip yPred).filter fun p => decide (p.1 ≠ 1 ∧ p.2 = 1)).length
  if tp + fp = 0 then 0 else (tp : ℚ) / ((tp : ℚ) + (fp : ℚ))

def recall_score (yTrue yPred : List ℚ) : ℚ :=
  let tp := ((yTrue.zip yPred).filter fun p => decide (p.1 = 1 ∧ p.2 = 1)).length
  let fn := ((yTrue.zip yPred).filter fun p => decide (p.1 = 1 ∧ p.2 ≠ 1)).length
  if tp + fn = 0 then 0 else (tp : ℚ) / ((tp : ℚ) + (fn : ℚ))

def roc_auc_score (yTrue yScore : List ℚ) : Except String ℚ :=
  if yTrue.all fun y => decide (y = yTrue.headD 0) then
    Except.error "ValueError: Only one class present in y_true. ROC AUC score is not defined in that case."
  else
    let pairs := yTrue.zip yScore
    let pos := (pairs.filter fun p => decide (p.1 = 1)).map Prod.snd
    let neg := (pairs.filter fun p => decide (p.1 ≠ 1)).map Prod.snd
    let wins := (pos.map fun s =>
      ((neg.filter fun t => decide (t < s)).length : ℚ) +
        ((neg.filter fun t => decide (t = s)).length : ℚ) / 2).sum
    Except.ok (wins / ((pos.length : ℚ) * (neg.length : ℚ)))

/-- The metric line of `evaluate` (line 121): the four scalar metrics,
with the `ValueError` of `roc_auc_score` propagating out of `evaluate`
(there is no handler). -/
def evaluateMetrics (yTrue yPred yScore : List ℚ) : Except String (ℚ × ℚ × ℚ × ℚ) :=
  match roc_auc_score yTrue yScore with
  | Except.error e => Except.error e
  | Except.ok auc =>
    Except.ok (accuracy_score yTrue yPred, precision_score yTrue yPred,
      recall_score yTrue yPred, auc)

/-- `evaluate` (lines 100-123) over its accumulated data: each batch of
the requested sweeps contributes its true labels to `y_true` and its
`zero_shot_classification` outputs to `y_pred`/`y_score` (the `task`
argument is forwarded as the `categories` argument), then the corpus
metrics are computed on the accumulated vectors. -/
def evaluate {Img Cat : Type} (forward : Img → List String → List ℚ)
    (batches : List (Img × List ℚ)) (task : Cat) : Except String (ℚ × ℚ × ℚ × ℚ) :=
  let yTrue := (batches.map fun b => b.2).flatten
  let perBatch := batches.map fun b => zero_shot_classification forward b.1 task
  let yPred := (perBatch.map fun r => r.2).flatten
  let yScore := (perBatch.map fun r => r.1).flatten
  evaluateMetrics yTrue yPred yScore

/-- The accumulated true-label vector of an `evaluate` call. -/
def yTrueOf {Img : Type} (batches : List (Img × List ℚ)) : List ℚ :=
  (batches.map fun b => b.2).flatten

/-! ### Data-source sweeps (lines 111-120, 148-200)

A sweep over a data source is recorded as the list of `next()`/`reset()`
calls it performs on named generators.  `evaluate` (lines 111-120) runs,
for each (data-source, step-count) pair, `step` calls of `next` followed
by one `reset`.  The training pass of `train_validate` iterates
`for step in tqdm(range(), ...)` (line 151) — `range()` with no argument
raises `TypeError` in Python — and neither the training-loss sweep nor
the validation-loss sweep (lines 180-197) ever calls `reset()`. -/

inductive GenEvent
  | next (g : String)
  | reset (g : String)
deriving DecidableEq

/-- Python's `range`, with `none` standing for the zero-argument call
`range()` written on line 151. -/
def pythonRange : Option Nat → Except String (List Nat)
  | none => Except.error "TypeError: range expected at least 1 argument, got 0"
  | some n => Except.ok (List.range n)

def sweepTrace (g : String) (n : Nat) : List GenEvent :=
  List.replicate n (GenEvent.next g) ++ [GenEvent.reset g]

/-- The generator events of one `evaluate` call (lines 111-120):
`generators` paired index-wise with the step counts of the `steps`
dictionary. -/
def evaluateTrace (generators : List String) (stepCounts : List Nat) : List GenEvent :=
  ((generators.zip stepCounts).map fun gn => sweepTrace gn.1 gn.2).flatten

/-- The generator events of one epoch of `train_validate` (lines
148-200): the training-loss pass driven by `range()` (line 151, no
`reset` afterwards), the validation-loss pass driven by
`range(steps["Validation"])` (line 180, no `reset` afterwards), then the
two `evaluate` sweeps of lines 199-200. -/
def trainValidateEpochTrace (stepsTrain stepsVal : Nat) : Except String (List GenEvent) :=
  match pythonRange none with
  | Except.error e => Except.error e
  | Except.ok idxs =>
    let trainPass := idxs.map fun _ => GenEvent.next "train"
    let valPass := (List.range stepsVal).map fun _ => GenEvent.next "validation"
    Except.ok (trainPass ++ valPass ++
      evaluateTrace ["train"] [stepsTrain] ++ evaluateTrace ["validation"] [stepsVal])

/-! ### Early stopping and checkpointing (lines 145-147, 226-236)

The epoch loop's stateful tail (lines 226-235) is modelled over the
sequence of per-epoch results, each a pair of the model parameters after
the epoch's training pass and the epoch's average validation loss.  The
state carries the filesystem (`torch.save` on line 228 writes the
parameter snapshot to the literal path `'best_model.pth'`), the best
validation loss so far (`float('inf')` initially, i.e. `none`), the
non-improvement counter, and the stop flag.  After the loop,
`train_validate` (line 236) loads
`results/finetune/{medical_type}/medclip/best_model.pth` — the path
computed on line 146 — or fails when no file exists there. -/

structure TVState (P : Type) where
  fs : String → Option P
  best : Option ℚ
  counter : Nat
  earlyStop : Bool

/-- `avg_validation_loss < self.best_val_loss` with `best = none`
standing for the initial `float('inf')`. -/
def improvesBest (valLoss : ℚ) (best : Option ℚ) : Bool :=
  match best with
  | none => true
  | some b => decide (valLoss < b)

/-- Lines 226-235 for one epoch: on strict improvement save the
snapshot to `'best_model.pth'` and reset the counter; otherwise
increment the counter and raise the stop flag when it reaches the
patience. -/
def checkpointStep {P : Type} (patience : Nat) (params : P) (valLoss : ℚ)
    (s : TVState P) : TVState P :=
  if improvesBest valLoss s.best then
    { s with
        best := some valLoss
        fs := fun path => if path = "best_model.pth" then some params else s.fs path
        counter := 0 }
  else
    let c := s.counter + 1
    { s with counter := c, earlyStop := if c = patience then true else s.earlyStop }

/-- The epoch loop (lines 148, 226-235): processes the per-epoch results
in order, breaking right after the epoch that raises the stop flag.
Returns the final state and the number of epochs that executed. -/
def runEpochs {P : Type} (patience : Nat) :
    List (P × ℚ) → TVState P → TVState P × Nat
  | [], s => (s, 0)
  | e :: rest, s =>
    let s1 := checkpointStep patience e.1 e.2 s
    if s1.earlyStop then (s1, 1)
    else
      let r := runEpochs patience rest s1
      (r.1, r.2 + 1)

def modelSavePath (medicalType : String) : String :=
  "results/finetune/" ++ medicalType ++ "/medclip/best_model.pth"

/-- `train_validate` at the checkpoint level: run the epoch loop from
the initial early-stopping state over the given filesystem, then load
the checkpoint at `model_save_path` (line 236); a missing file is
`torch.load`'s `FileNotFoundError`. -/
def train_validate {P : Type} (medicalType : String) (patience : Nat)
    (epochData : List (P × ℚ)) (fs0 : String → Option P) : Except String P :=
  let r := runEpochs patience epochData
    { fs := fs0, best := none, counter := 0, earlyStop := false }
  match r.1.fs (modelSavePath medicalType) with
  | some p => Except.ok p
  | none => Except.error "FileNotFoundError"

/-! ### Metric history (lines 28-39, 201-210)

Ten per-epoch metric sequences, initially empty; each completed epoch
appends exactly one value to each (lines 201-210). -/

structure MetricHistory where
  train_loss : List ℚ
  val_loss : List ℚ
  train_accuracy : List ℚ
  val_accuracy : List ℚ
  train_precision : List ℚ
  val_precision : List ℚ
  train_recall : List ℚ
  val_recall : List ℚ
  train_auc : List ℚ
  val_auc : List ℚ

/-- The dictionary literal of lines 28-39: every key starts empty. -/
def initMetricHistory : MetricHistory :=
  ⟨[], [], [], [], [], [], [], [], [], []⟩

/-- The ten per-epoch scalars appended on lines 201-210. -/
structure EpochMetrics where
  train_loss : ℚ
  val_loss : ℚ
  train_accuracy : ℚ
  val_accuracy : ℚ
  train_precision : ℚ
  val_precision : ℚ
  train_recall : ℚ
  val_recall : ℚ
  train_auc : ℚ
  val_auc : ℚ

/-- Lines 201-210: one `append` per key. -/
def appendEpoch (h : MetricHistory) (m : EpochMetrics) : MetricHistory where
  train_loss := h.train_loss ++ [m.train_loss]
  val_loss := h.val_loss ++ [m.val_loss]
  train_accuracy := h.train_accuracy ++ [m.train_accuracy]
  val_accuracy := h.val_accuracy ++ [m.val_accuracy]
  train_precision := h.train_precision ++ [m.train_precision]
  val_precision := h.val_precision ++ [m.val_precision]
  train_recall := h.train_recall ++ [m.train_recall]
  val_recall := h.val_recall ++ [m.val_recall]
  train_auc := h.train_auc ++ [m.train_auc]
  val_auc := h.val_auc ++ [m.val_auc]

/-- The metric history after a run of the given completed epochs. -/
def historyAfter (ms : List EpochMetrics) : MetricHistory :=
  ms.foldl appendEpoch initMetricHistory

/-! ## Theorems -/

/-- C2: the training loss of lines 166-168 is the arithmetic mean of the
cross-entropy of the image logits against `[0..B-1]` and the
cross-entropy of the text logits against `[0..B-1]`; and with
`L_txt = L_img` transposed, swapping the two already-transposed matrices
(passing the transpose as the image logits and its transpose as the text
logits) yields the same scalar loss. -/
theorem contrastive_loss_symmetry (B : ℕ) (Limg Ltxt : Fin B → Fin B → ℝ) :
    totalLoss B Limg Ltxt =
      (crossEntropyLoss B Limg (groundTruth B) +
        crossEntropyLoss B Ltxt (groundTruth B)) / 2 ∧
    totalLoss B Limg (transposeLogits B Limg) =
      totalLoss B (transposeLogits B Limg) (transposeLogits B (transposeLogits B Limg)) := by
  constructor
  · rfl
  · have ht : transposeLogits B (transposeLogits B Limg) = Limg := rfl
    rw [ht]
    unfold totalLoss
    ring

/-- C3: the precondition of `run` (line 248) accepts
`("regular_captions", 1)` and `("random_captions", 3)` and rejects
`("regular_captions", 2)` and `("random_captions", 0)`; the check runs
first and exactly once per run, and when it fails the trace contains the
precheck and nothing else — no epoch ever starts. -/
theorem prompt_policy_precheck :
    optionSettingsValid "regular_captions" 1 = true ∧
    optionSettingsValid "regular_captions" 2 = false ∧
    optionSettingsValid "random_captions" 0 = false ∧
    optionSettingsValid "random_captions" 3 = true ∧
    (∀ (o : String) (n : Int) (e : Nat),
      (runTrace o n e).head? = some RunStep.precheck) ∧
    (∀ (o : String) (n : Int) (e : Nat),
      ∃ rest, runTrace o n e = RunStep.precheck :: rest ∧ RunStep.precheck ∉ rest) ∧
    (∀ (o : String) (n : Int) (e : Nat),
      optionSettingsValid o n = false → runTrace o n e = [RunStep.precheck]) := by
  refine ⟨by decide, by decide, by decide, by decide, ?_, ?_, ?_⟩
  · intro o n e
    rfl
  · intro o n e
    refine ⟨_, rfl, ?_⟩
    by_cases hv : optionSettingsValid o n = true
    · simp [hv]
    · simp [hv]
  · intro o n e h
    simp [runTrace, h]

/-- C3 witness: the invalid combination `("random_captions", 0)` fails
the precheck and its run trace is the precheck alone. -/
theorem prompt_policy_precheck_witness :
    optionSettingsValid "random_captions" 0 = false ∧
    runTrace "random_captions" 0 7 = [RunStep.precheck] :=
  ⟨by decide, prompt_policy_precheck.2.2.2.2.2.2 "random_captions" 0 7 (by decide)⟩

/-- C5: the training sweep of `train_validate` iterates `range()` with
no argument (line 151), which raises `TypeError` — so an epoch of
`train_validate` never performs a `step_count`-long `next()` sweep at
all; by contrast an `evaluate` sweep does call `next()` exactly
`step_count` times and then `reset()` once. -/
theorem train_sweep_range_error :
    (∀ stepsTrain stepsVal : Nat,
      trainValidateEpochTrace stepsTrain stepsVal =
        Except.error "TypeError: range expected at least 1 argument, got 0") ∧
    (∀ (g : String) (n : Nat),
      evaluateTrace [g] [n] = List.replicate n (GenEvent.next g) ++ [GenEvent.reset g]) := by
  constructor
  · intro sT sV
    rfl
  · intro g n
    simp [evaluateTrace, sweepTrace]

/-- C9: on accelerated hardware, every parameter carrying a gradient is
in full precision (value and gradient) when the optimizer steps, and
after the per-batch cycle all parameters are back in reduced precision;
on non-accelerated hardware the cycle is a no-op — the step runs
directly on the parameters. -/
theorem precision_cycle_invariant (ps : List Param) :
    (∀ p ∈ convert_models_to_fp32 ps, p.grad ≠ none →
      p = ⟨Precision.full, some Precision.full⟩) ∧
    (∀ p ∈ precisionBatchStep "cuda" ps, p.data = Precision.half) ∧
    precisionBatchStep "cpu" ps = optimizerStep ps := by
  refine ⟨?_, ?_, rfl⟩
  · intro p hp hg
    simp only [convert_models_to_fp32, List.mem_map] at hp
    obtain ⟨q, _, rfl⟩ := hp
    cases hq : q.grad with
    | none => simp [hq] at hg
    | some g => simp [hq]
  · intro p hp
    have hstep : precisionBatchStep "cuda" ps =
        convert_weights (optimizerStep (convert_models_to_fp32 ps)) := rfl
    rw [hstep] at hp
    simp only [convert_weights, optimizerStep, List.mem_map] at hp
    obtain ⟨q, _, rfl⟩ := hp
    rfl

/-- C9 witness: a reduced-precision parameter with a reduced-precision
gradient is full/full after `convert_models_to_fp32`. -/
theorem precision_cycle_invariant_witness :
    ((⟨Precision.full, some Precision.full⟩ : Param) ∈
        convert_models_to_fp32 [⟨Precision.half, some Precision.half⟩] ∧
      (⟨Precision.full, some Precision.full⟩ : Param).grad ≠ none) ∧
    (⟨Precision.full, some Precision.full⟩ : Param) =
      ⟨Precision.full, some Precision.full⟩ :=
  ⟨⟨by decide, by decide⟩,
    (precision_cycle_invariant [⟨Precision.half, some Precision.half⟩]).1 _
      (by decide) (by decide)⟩

/-- C10: `zero_shot_classification` classifies with the fixed prompt
list `["a photo of covid lungs."]` and never reads its `categories`
argument, so its scores and predicted labels — and therefore the result
of `evaluate`, which forwards its `task` argument there — are identical
for any two values of that argument. -/
theorem classification_ignores_task {Img Cat : Type}
    (forward : Img → List String → List ℚ) :
    (∀ (img : Img) (c : Cat),
      zero_shot_classification forward img c =
        (forward img fixedCovidPrompts, (forward img fixedCovidPrompts).map npRound)) ∧
    (∀ (img : Img) (c₁ c₂ : Cat),
      zero_shot_classification forward img c₁ = zero_shot_classification forward img c₂) ∧
    (∀ (batches : List (Img × List ℚ)) (t₁ t₂ : Cat),
      evaluate forward batches t₁ = evaluate forward batches t₂) :=
  ⟨fun _ _ => rfl, fun _ _ _ => rfl, fun _ _ _ => rfl⟩

theorem buildCaptions_regular (categories : List String) :
    ∀ labels : List Nat, (∀ l ∈ labels, l < categories.length) →
      buildCaptions categories labels =
        some (labels.map fun l => "a photo of " ++ categories.getD l "" ++ " lungs.") := by
  intro labels
  induction labels with
  | nil => intro _; rfl
  | cons l ls ih =>
    intro h
    have hl : l < categories.length := h l (List.mem_cons_self l ls)
    have hrest := ih fun x hx => h x (List.mem_cons_of_mem l hx)
    simp [buildCaptions, hrest, List.getElem?_eq_getElem hl]

/-- C6: the per-batch prompt construction (lines 156-158) handles only
the fixed policy — under `"regular_captions"` it yields exactly one
caption per label, of the form `"a photo of {category(label)} lungs."` —
while under `"random_captions"` (accepted by the `run` precondition) the
read of `texts` fails with `UnboundLocalError`: the randomized policy is
not supported. -/
theorem random_captions_unbound (categories : List String) (labels : List Nat)
    (h : ∀ l ∈ labels, l < categories.length) :
    buildTexts "regular_captions" categories labels =
      Except.ok (labels.map fun l => "a photo of " ++ categories.getD l "" ++ " lungs.") ∧
    (labels.map fun l => "a photo of " ++ categories.getD l "" ++ " lungs.").length =
      labels.length ∧
    buildTexts "random_captions" categories labels =
      Except.error "UnboundLocalError: local variable texts referenced before assignment" := by
  refine ⟨?_, List.length_map _ _, rfl⟩
  simp [buildTexts, buildCaptions_regular categories labels h]

/-- C6 witness: the binary label batch `[0, 1, 1]` over the vocabulary
`["normal", "covid"]`. -/
theorem random_captions_unbound_witness :
    (∀ l ∈ [0, 1, 1], l < (["normal", "covid"] : List String).length) ∧
    buildTexts "random_captions" ["normal", "covid"] [0, 1, 1] =
      Except.error "UnboundLocalError: local variable texts referenced before assignment" :=
  ⟨by decide, (random_captions_unbound ["normal", "covid"] [0, 1, 1] (by decide)).2.2⟩

/-- C7: whenever the true-label vector accumulated by `evaluate` is
nonempty and single-class (here: all labels `1`), `evaluate` surfaces
sklearn's `ValueError` for the undefined AUC instead of returning
numeric metrics. -/
theorem auc_single_class_error {Img Cat : Type} (forward : Img → List String → List ℚ)
    (batches : List (Img × List ℚ)) (task : Cat)
    (hne : yTrueOf batches ≠ [])
    (hall : ∀ y ∈ yTrueOf batches, y = 1) :
    evaluate forward batches task =
      Except.error "ValueError: Only one class present in y_true. ROC AUC score is not defined in that case." := by
  have hcond : ((yTrueOf batches).all fun y => decide (y = (yTrueOf batches).headD 0)) = true := by
    rw [List.all_eq_true]
    intro y hy
    have h1 : y = 1 := hall y hy
    have h2 : (yTrueOf batches).headD 0 = 1 := by
      cases hcase : yTrueOf batches with
      | nil => exact absurd hcase hne
      | cons a t =>
        have : a = 1 := hall a (by rw [hcase]; exact List.mem_cons_self a t)
        simp [this]
    rw [h1, h2]
    exact decide_eq_true rfl
  show evaluateMetrics (yTrueOf batches) _ _ = _
  unfold evaluateMetrics roc_auc_score
  rw [if_pos hcond]

/-- C7 witness: one evaluation batch whose labels are all `1`. -/
theorem auc_single_class_error_witness :
    (yTrueOf [(((), [1, 1]) : Unit × List ℚ)] ≠ [] ∧
      ∀ y ∈ yTrueOf [(((), [1, 1]) : Unit × List ℚ)], y = 1) ∧
    evaluate (fun (_ : Unit) (_ : List String) => ([1 / 2] : List ℚ))
        [((), [1, 1])] "task" =
      Except.error "ValueError: Only one class present in y_true. ROC AUC score is not defined in that case." :=
  ⟨⟨by decide, by decide⟩,
    auc_single_class_error (fun _ _ => [1 / 2]) [((), [1, 1])] "task"
      (by decide) (by decide)⟩

theorem historyFold_lengths (ms : List EpochMetrics) : ∀ h : MetricHistory,
    (ms.foldl appendEpoch h).train_loss.length = h.train_loss.length + ms.length ∧
    (ms.foldl appendEpoch h).val_loss.length = h.val_loss.length + ms.length ∧
    (ms.foldl appendEpoch h).train_accuracy.length = h.train_accuracy.length + ms.length ∧
    (ms.foldl appendEpoch h).val_accuracy.length = h.val_accuracy.length + ms.length ∧
    (ms.foldl appendEpoch h).train_precision.length = h.train_precision.length + ms.length ∧
    (ms.foldl appendEpoch h).val_precision.length = h.val_precision.length + ms.length ∧
    (ms.foldl appendEpoch h).train_recall.length = h.train_recall.length + ms.length ∧
    (ms.foldl appendEpoch h).val_recall.length = h.val_recall.length + ms.length ∧
    (ms.foldl appendEpoch h).train_auc.length = h.train_auc.length + ms.length ∧
    (ms.foldl appendEpoch h).val_auc.length = h.val_auc.length + ms.length := by
  induction ms with
  | nil => intro h; simp
  | cons m rest ih =>
    intro h
    have hx := ih (appendEpoch h m)
    simp only [List.foldl_cons, appendEpoch, List.length_append, List.length_cons,
      List.length_nil] at hx ⊢
    omega

/-- C8: after `n` completed epochs every one of the ten tracked metric
keys has a history of length exactly `n` (so after epoch `e`, counting
from 0, length `e + 1`), and each completed epoch appends exactly one
value to each key. -/
theorem metric_history_lengths :
    (∀ ms : List EpochMetrics,
      (historyAfter ms).train_loss.length = ms.length ∧
      (historyAfter ms).val_loss.length = ms.length ∧
      (historyAfter ms).train_accuracy.length = ms.length ∧
      (historyAfter ms).val_accuracy.length = ms.length ∧
      (historyAfter ms).train_precision.length = ms.length ∧
      (historyAfter ms).val_precision.length = ms.length ∧
      (historyAfter ms).train_recall.length = ms.length ∧
      (historyAfter ms).val_recall.length = ms.length ∧
      (historyAfter ms).train_auc.length = ms.length ∧
      (historyAfter ms).val_auc.length = ms.length) ∧
    (∀ (h : MetricHistory) (m : EpochMetrics),
      (appendEpoch h m).train_loss = h.train_loss ++ [m.train_loss] ∧
      (appendEpoch h m).val_loss = h.val_loss ++ [m.val_loss] ∧
      (appendEpoch h m).train_accuracy = h.train_accuracy ++ [m.train_accuracy] ∧
      (appendEpoch h m).val_accuracy = h.val_accuracy ++ [m.val_accuracy] ∧
      (appendEpoch h m).train_precision = h.train_precision ++ [m.train_precision] ∧
      (appendEpoch h m).val_precision = h.val_precision ++ [m.val_precision] ∧
      (appendEpoch h m).train_recall = h.train_recall ++ [m.train_recall] ∧
      (appendEpoch h m).val_recall = h.val_recall ++ [m.val_recall] ∧
      (appendEpoch h m).train_auc = h.train_auc ++ [m.train_auc] ∧
      (appendEpoch h m).val_auc = h.val_auc ++ [m.val_auc]) := by
  constructor
  · intro ms
    have hx := historyFold_lengths ms initMetricHistory
    simpa [historyAfter, initMetricHistory] using hx
  · intro h m
    exact ⟨rfl, rfl, rfl, rfl, rfl, rfl, rfl, rfl, rfl, rfl⟩

theorem runEpochs_nonimproving {P : Type} (patience : Nat) (b : ℚ) :
    ∀ (tail : List (P × ℚ)) (drop : List (P × ℚ)) (s : TVState P),
      s.best = some b → s.counter + tail.length = patience →
      s.earlyStop = false → tail ≠ [] → (∀ x ∈ tail, b ≤ x.2) →
      (runEpochs patience (tail ++ drop) s).1.earlyStop = true ∧
      (runEpochs patience (tail ++ drop) s).2 = tail.length := by
  intro tail
  induction tail with
  | nil => intro _ _ _ _ _ hne _; exact absurd rfl hne
  | cons e rest ih =>
    intro drop s hbest hsum hflag _ hni
    have hnotimp : improvesBest e.2 s.best = false := by
      rw [hbest]
      simp only [improvesBest, decide_eq_false_iff_not, not_lt]
      exact hni e (List.mem_cons_self e rest)
    have hstep : checkpointStep patience e.1 e.2 s =
        { s with counter := s.counter + 1,
                 earlyStop := if s.counter + 1 = patience then true else s.earlyStop } := by
      unfold checkpointStep
      rw [hnotimp]
      simp
    simp only [List.cons_append, runEpochs, hstep]
    by_cases hpat : s.counter + 1 = patience
    · have hlen : rest.length = 0 := by
        simp only [List.length_cons] at hsum
        omega
      simp [hpat, hlen]
    · have hne' : rest ≠ [] := by
        intro hr
        rw [hr] at hsum
        simp only [List.length_cons, List.length_nil] at hsum
        omega
      have hx := ih drop
        { s with counter := s.counter + 1,
                 earlyStop := if s.counter + 1 = patience then true else s.earlyStop }
        (by simpa using hbest)
        (by simp only [List.length_cons] at hsum; simpa using by omega)
        (by simp [hpat, hflag])
        hne'
        (fun x hx => hni x (List.mem_cons_of_mem e hx))
      simp only [hpat, if_false, hflag] at hx ⊢
      simp [hx.1, hx.2]

/-- C4: from a state where the best validation loss was just recorded
(counter 0, flag down), a run of exactly `patience` consecutive
non-improving epochs — each validation loss at least the best — raises
the early-stop flag at the `patience`-th such epoch, the loop breaks
there, and no later epoch executes: exactly `patience` further epochs
run, none of the remaining budget. -/
theorem early_stopping_triggers {P : Type} (patience : Nat) (b : ℚ)
    (tail drop : List (P × ℚ)) (s : TVState P)
    (hbest : s.best = some b) (hctr : s.counter = 0) (hflag : s.earlyStop = false)
    (hlen : tail.length = patience) (hne : tail ≠ [])
    (hni : ∀ x ∈ tail, b ≤ x.2) :
    (runEpochs patience (tail ++ drop) s).1.earlyStop = true ∧
    (runEpochs patience (tail ++ drop) s).2 = patience := by
  have hx := runEpochs_nonimproving patience b tail drop s hbest
    (by rw [hctr, hlen]; omega) hflag hne hni
  exact ⟨hx.1, by rw [hx.2, hlen]⟩

def earlyStopWitnessState : TVState Unit :=
  { fs := fun _ => none, best := some 1, counter := 0, earlyStop := false }

/-- C4 witness: patience 2, best loss 1, two non-improving epochs
(losses 1 and 2) followed by one unused epoch in the budget: the flag
rises at the second non-improving epoch and exactly two epochs run. -/
theorem early_stopping_triggers_witness :
    (earlyStopWitnessState.best = some 1 ∧ earlyStopWitnessState.counter = 0 ∧
      earlyStopWitnessState.earlyStop = false ∧
      ([(((), 1) : Unit × ℚ), ((), 2)].length = 2 ∧ [(((), 1) : Unit × ℚ), ((), 2)] ≠ []) ∧
      (∀ x ∈ [(((), 1) : Unit × ℚ), ((), 2)], (1 : ℚ) ≤ x.2)) ∧
    ((runEpochs 2 ([(((), 1) : Unit × ℚ), ((), 2)] ++ [((), 0)])
        earlyStopWitnessState).1.earlyStop = true ∧
      (runEpochs 2 ([(((), 1) : Unit × ℚ), ((), 2)] ++ [((), 0)])
        earlyStopWitnessState).2 = 2) :=
  ⟨⟨rfl, rfl, rfl, ⟨rfl, by decide⟩, by decide⟩,
    early_stopping_triggers 2 1 [((), 1), ((), 2)] [((), 0)] earlyStopWitnessState
      rfl rfl rfl rfl (by decide) (by decide)⟩

theorem runEpochs_fs_other {P : Type} (patience : Nat) (path : String)
    (hpath : path ≠ "best_model.pth") :
    ∀ (data : List (P × ℚ)) (s : TVState P),
      (runEpochs patience data s).1.fs path = s.fs path := by
  intro data
  induction data with
  | nil => intro s; rfl
  | cons e rest ih =>
    intro s
    have hfs : (checkpointStep patience e.1 e.2 s).fs path = s.fs path := by
      unfold checkpointStep
      by_cases himp : improvesBest e.2 s.best = true
      · rw [if_pos himp]
        simp [hpath]
      · rw [if_neg himp]
    simp only [runEpochs]
    by_cases hstop : (checkpointStep patience e.1 e.2 s).earlyStop = true
    · simp only [hstop, if_true]
      exact hfs
    · rw [Bool.not_eq_true] at hstop
      simp [hstop, ih (checkpointStep patience e.1 e.2 s), hfs]

theorem modelSavePath_ne (medicalType : String) :
    modelSavePath medicalType ≠ "best_model.pth" := by
  intro h
  have hl := congrArg String.length h
  rw [modelSavePath, String.length_append, String.length_append] at hl
  have h1 : ("results/finetune/" : String).length = 17 := rfl
  have h2 : ("/medclip/best_model.pth" : String).length = 23 := rfl
  have h3 : ("best_model.pth" : String).length = 14 := rfl
  omega

/-- C1: the claim fails on the code.  The epoch loop saves the best
checkpoint only to the literal top-level path `'best_model.pth'` (line
228) and never to `results/finetune/{medical_type}/medclip/best_model.pth`,
yet line 236 reloads exactly that latter path, so every run of
`train_validate` that reaches the reload — under any epoch/loss
sequence, on a filesystem the run started with — fails with
`FileNotFoundError` instead of returning the minimum-validation-loss
parameters. -/
theorem train_validate_load_misses_checkpoint (P : Type) (medicalType : String)
    (patience : Nat) (epochData : List (P × ℚ)) :
    train_validate medicalType patience epochData (fun _ => none) =
      Except.error "FileNotFoundError" := by
  have hfs := runEpochs_fs_other (P := P) patience (modelSavePath medicalType)
    (modelSavePath_ne medicalType) epochData
    { fs := fun _ => none, best := none, counter := 0, earlyStop := false }
  simp only [train_validate]
  rw [hfs]

end VisionProject
